import Mathlib

set_option autoImplicit false

/-!
Verification development for the BuildTL ETL engine
(`backend/app/services/etl_service.py` and the data model in
`backend/app/models/etl.py`).

The Python service is shallowly embedded: Spark DataFrames become a small
`Table` structure, the external world (databases, object stores, the LLM
code-synthesis gateway, the dynamic `exec` of generated code) becomes an
explicit `Env` record of oracles, and fallible Python code returns
`Except PyError`.  Stateful parts (the execution-history record, the
connector I/O performed during a run) are returned explicitly: a run
produces a result, an `ExecRecord` and a trace of `IOEvent`s.
-/

namespace BuildTL

/-- Python exception values that the embedded code can raise. -/
inductive PyError where
  | keyError (key : String)
  | valueError (msg : String)
  | nameError (msg : String)
  | analysisException (msg : String)
  | networkxUnfeasible
  | recursionError
  deriving DecidableEq, Repr

/-- Rendering of `str(e)` for the exceptions above (the quote characters
Python prints around a `KeyError` key are transliterated away; no claim
depends on them, only on the messages being non-empty). -/
def PyError.str : PyError → String
  | .keyError k => "KeyError: " ++ k
  | .valueError m => m
  | .nameError m => m
  | .analysisException m => m
  | .networkxUnfeasible => "Graph contains a cycle or graph changed during iteration"
  | .recursionError => "maximum recursion depth exceeded"

/-- Connection configurations (`LinkedService.connection_config`) are JSON
objects; they are embedded as association lists of string key/value pairs. -/
abbrev Config := List (String × String)

/-- Generated transformation code is carried around as opaque text. -/
abbrev Code := String

/-- Lookup in a `Config` (`config.get(key)` / `config[key]`). -/
def configGet (c : Config) (k : String) : Option String :=
  (c.find? (fun p => p.1 == k)).map (fun p => p.2)

/-- Membership test (`key in config`). -/
def configHas (c : Config) (k : String) : Bool :=
  c.any (fun p => p.1 == k)

/-- Assignment `config[key] = v`: replaces the value in place if the key is
present, appends otherwise (Python dict semantics on insertion order). -/
def configSet (c : Config) (k : String) (v : String) : Config :=
  if configHas c k then
    c.map (fun p => if p.1 == k then (p.1, v) else p)
  else
    c ++ [(k, v)]

/-- One column of a Spark schema: `field.name` and `str(field.dataType)`. -/
structure TField where
  name : String
  dataType : String
  deriving DecidableEq, Repr

/-- A Spark DataFrame, reduced to its schema and its rows (cell values as
strings; only schema and content equality matter to the claims). -/
structure Table where
  fields : List TField
  rows : List (List String)
  deriving DecidableEq, Repr

/-- Index of a named column in a table, if present. -/
def Table.colIndex (t : Table) (c : String) : Option Nat :=
  t.fields.findIdx? (fun f => f.name == c)

/-- Column projection `df.select(*cols)`.  Spark raises an analysis error
when a requested column does not exist. -/
def Table.selectCols (t : Table) (cols : List String) : Except PyError Table :=
  match cols.mapM (fun c => t.colIndex c) with
  | none => .error (.analysisException "cannot resolve column")
  | some idxs =>
      .ok { fields := idxs.filterMap (fun i => t.fields.get? i),
            rows := t.rows.map (fun r => idxs.filterMap (fun i => r.get? i)) }

/-- Row limiting `df.limit(n)`. -/
def Table.limitRows (t : Table) (n : Nat) : Table :=
  { t with rows := t.rows.take n }

/-- A reusable connection descriptor (`LinkedService` model). -/
structure LinkedService where
  serviceType : String
  connectionConfig : Config
  deriving DecidableEq, Repr

/-- A queryable unit derived from a linked service (`ETLDataSource` model);
`tableName` is the table-or-path field. -/
structure DataSource where
  id : Nat
  tableName : String
  linkedService : Option LinkedService
  deriving DecidableEq, Repr

/-- Relational/warehouse backend kinds handled over JDBC. -/
def jdbcTypes : List String := ["postgresql", "mysql", "sql_server", "azure_sql"]

/-- Object-storage backend kinds. -/
def storageTypes : List String := ["s3", "minio", "gcs", "adls"]

/-- The sensitive configuration keys decrypted by `load_source_data`. -/
def sensitiveKeys : List String :=
  ["password", "secret_key", "account_key", "access_key", "credentials_json"]

/-- Embedding of the decryption loop at the top of `load_source_data`:

    for key in sensitive_keys:
        if key in config:
            config[key] = decrypt_value(config[key])
        config['credentials_json'] = decrypt_value(config['credentials_json'])

The second statement sits inside the loop body but outside the `if`, so on
every iteration it reads `config['credentials_json']`, raising `KeyError`
when that key is absent. -/
def decryptSensitive (decrypt : String → String) : List String → Config → Except PyError Config
  | [], c => .ok c
  | k :: ks, c =>
    let c1 := if configHas c k then configSet c k (decrypt ((configGet c k).getD "")) else c
    match configGet c1 "credentials_json" with
    | none => .error (.keyError "credentials_json")
    | some v => decryptSensitive decrypt ks (configSet c1 "credentials_json" (decrypt v))

/-- File format inference from the path suffix used by the storage branches. -/
def inferFormat (path : String) : String :=
  if path.endsWith ".csv" then "csv"
  else if path.endsWith ".json" then "json"
  else if path.endsWith ".txt" then "text"
  else "parquet"

/-- Python's `path.lstrip('/')`. -/
def lstripSlash (s : String) : String := s.dropWhile (fun ch => ch == '/')

/-- Path normalization for the `s3`/`minio` branch of `load_source_data`. -/
def normalizeS3Path (config : Config) (path : String) : String :=
  if path.startsWith "s3a://" then path
  else
    let bucket := (configGet config "bucket").getD ""
    if bucket != "" && !(path.startsWith bucket) then
      "s3a://" ++ bucket ++ "/" ++ lstripSlash path
    else
      "s3a://" ++ path

/-- Path normalization for the `gcs` branch of `load_source_data`. -/
def normalizeGcsPath (config : Config) (path : String) : String :=
  if path.startsWith "gs://" then path
  else
    let bucket := (configGet config "bucket").getD ""
    if bucket != "" && !(path.startsWith bucket) then
      "gs://" ++ bucket ++ "/" ++ lstripSlash path
    else
      "gs://" ++ path

/-- Path normalization for the `adls` branch of `load_source_data`. -/
def normalizeAdlsPath (config : Config) (path : String) : String :=
  let accountName := (configGet config "account_name").getD ""
  if path.startsWith "abfss://" then path
  else
    let container := (configGet config "container").getD ""
    if container != "" && !(path.startsWith container) then
      "abfss://" ++ container ++ "@" ++ accountName ++ ".dfs.core.windows.net/" ++ lstripSlash path
    else if (path.splitOn "dfs.core.windows.net").length == 1 then
      "abfss://" ++ path ++ "@" ++ accountName ++ ".dfs.core.windows.net"
    else path

/-- Schema of one input table: column name mapped to declared type string. -/
abbrev InnerSchema := List (String × String)

/-- A recorded or live source schema: table name mapped to its column schema
(the JSON object stored in a transform node's `sourceSchema`). -/
abbrev Schema := List (String × InnerSchema)

/-- Executable lexicographic comparison on character lists, used to key-sort
schemas.  Any linear order on keys makes equality of the sorted forms agree
with the JSON `sort_keys=True` comparison, so the exact collation is
irrelevant; this one is chosen to be kernel-reducible. -/
def lexLe : List Char → List Char → Bool
  | [], _ => true
  | _ :: _, [] => false
  | a :: as, b :: bs =>
    if a.toNat < b.toNat then true
    else if b.toNat < a.toNat then false
    else lexLe as bs

/-- Lexicographic comparison on strings. -/
def strLeB (a b : String) : Bool := lexLe a.data b.data

theorem char_toNat_inj {a b : Char} (h : a.toNat = b.toNat) : a = b := by
  rw [← Char.ofNat_toNat a, ← Char.ofNat_toNat b, h]

theorem lexLe_total : ∀ a b : List Char, lexLe a b = true ∨ lexLe b a = true := by
  intro a
  induction a with
  | nil => intro b; exact .inl rfl
  | cons x xs ih =>
    intro b
    cases b with
    | nil => exact .inr rfl
    | cons y ys =>
      simp only [lexLe]
      rcases Nat.lt_trichotomy x.toNat y.toNat with h | h | h
      · left; simp [h]
      · have h1 : ¬ x.toNat < y.toNat := by omega
        have h2 : ¬ y.toNat < x.toNat := by omega
        simpa [h1, h2] using ih ys
      · right; simp [h, Nat.lt_asymm h]

theorem lexLe_trans :
    ∀ a b c : List Char, lexLe a b = true → lexLe b c = true → lexLe a c = true := by
  intro a
  induction a with
  | nil => intro b c _ _; rfl
  | cons x xs ih =>
    intro b c hab hbc
    cases b with
    | nil => simp [lexLe] at hab
    | cons y ys =>
      cases c with
      | nil => simp [lexLe] at hbc
      | cons z zs =>
        simp only [lexLe] at hab hbc ⊢
        rcases Nat.lt_trichotomy x.toNat y.toNat with hxy | hxy | hxy
        · rcases Nat.lt_trichotomy y.toNat z.toNat with hyz | hyz | hyz
          · simp [show x.toNat < z.toNat from Nat.lt_trans hxy hyz]
          · simp [show x.toNat < z.toNat from hyz ▸ hxy]
          · simp [show ¬ y.toNat < z.toNat by omega, hyz] at hbc
        · have h1 : ¬ x.toNat < y.toNat := by omega
          have h2 : ¬ y.toNat < x.toNat := by omega
          simp [h1, h2] at hab
          rcases Nat.lt_trichotomy y.toNat z.toNat with hyz | hyz | hyz
          · simp [show x.toNat < z.toNat by omega]
          · have h3 : ¬ x.toNat < z.toNat := by omega
            have h4 : ¬ z.toNat < x.toNat := by omega
            simp [show ¬ y.toNat < z.toNat by omega, show ¬ z.toNat < y.toNat by omega] at hbc
            simp [h3, h4]
            exact ih ys zs hab hbc
          · simp [show ¬ y.toNat < z.toNat by omega, hyz] at hbc
        · simp [show ¬ x.toNat < y.toNat by omega, hxy] at hab

theorem lexLe_antisymm :
    ∀ a b : List Char, lexLe a b = true → lexLe b a = true → a = b := by
  intro a
  induction a with
  | nil => intro b hab _; cases b with
    | nil => rfl
    | cons y ys => simp [lexLe] at *
  | cons x xs ih =>
    intro b hab hba
    cases b with
    | nil => simp [lexLe] at hab
    | cons y ys =>
      simp only [lexLe] at hab hba
      by_cases h1 : x.toNat < y.toNat
      · simp [h1, show ¬ y.toNat < x.toNat by omega] at hba
      · by_cases h2 : y.toNat < x.toNat
        · simp [h1, h2] at hab
        · have hx : x = y := char_toNat_inj (by omega)
          subst hx
          simp only [h1, if_neg, ite_self] at hab hba
          rw [ih ys (by simpa using hab) (by simpa using hba)]

theorem strLeB_total (a b : String) : strLeB a b = true ∨ strLeB b a = true :=
  lexLe_total a.data b.data

theorem strLeB_trans {a b c : String} (h1 : strLeB a b = true) (h2 : strLeB b c = true) :
    strLeB a c = true :=
  lexLe_trans a.data b.data c.data h1 h2

theorem strLeB_antisymm {a b : String} (h1 : strLeB a b = true) (h2 : strLeB b a = true) :
    a = b := by
  cases a; cases b
  exact congrArg String.mk (lexLe_antisymm _ _ h1 h2)

/-- Key ordering used to model `json.dumps(..., sort_keys=True)`. -/
def keyLE {α : Type} (a b : String × α) : Prop := strLeB a.1 b.1 = true

instance {α : Type} : DecidableRel (keyLE (α := α)) :=
  fun a b => inferInstanceAs (Decidable (strLeB a.1 b.1 = true))

instance {α : Type} : IsTotal (String × α) keyLE := ⟨fun a b => strLeB_total a.1 b.1⟩

instance {α : Type} : IsTrans (String × α) keyLE := ⟨fun _ _ _ h h2 => strLeB_trans h h2⟩

/-- Canonical (key-sorted) form of a column schema. -/
def canonInner (m : InnerSchema) : InnerSchema := List.insertionSort keyLE m

/-- Canonical (key-sorted, inner schemas canonicalized) form of a schema:
the shape `json.dumps(schema, sort_keys=True)` serializes. -/
def canonSchema (s : Schema) : Schema :=
  List.insertionSort keyLE (s.map (fun p => (p.1, canonInner p.2)))

/-- Embedding of the comparison
`json.dumps(saved, sort_keys=True) == json.dumps(live, sort_keys=True)`:
equality of the key-sorted canonical forms, hence independent of the order
in which either schema lists its tables and columns. -/
def schemaJsonEq (a b : Schema) : Bool := decide (canonSchema a = canonSchema b)

/-- Live schema of the transform inputs, as computed by
`check_schema_changes`: for each input table, column name to
`str(field.dataType)`. -/
def liveSchemaOf (inputDfs : List (String × Table)) : Schema :=
  inputDfs.map (fun p => (p.1, p.2.fields.map (fun f => (f.name, f.dataType))))

/-- Per-node payload (`node['data']`, a JSON bag whose keys depend on the
node type).  Absent keys are `none`; `sourceSchema = []` plays the role of
an absent or empty recorded schema (both are falsy in Python). -/
structure NodeData where
  datasourceId : Option Nat := none
  selectedColumns : Option (List String) := none
  generatedCode : Option Code := none
  sourceSchema : Schema := []
  tableName : Option String := none
  label : Option String := none
  writeMode : Option String := none
  pipelineId : Option Nat := none
  deriving DecidableEq, Repr

/-- A pipeline node.  `type` is the raw string from the JSON definition
(`source`, `transform`, `sink`, `pipeline`, or anything else: the executor
compares strings and silently skips a node whose type matches no branch);
`none` models a node record without a `type` key. -/
structure Node where
  id : String
  type : Option String
  data : NodeData
  deriving DecidableEq, Repr

/-- A directed edge `source -> target` between node ids. -/
structure Edge where
  source : String
  target : String
  deriving DecidableEq, Repr

/-- A stored pipeline definition (`ETLPipeline.nodes` / `.edges`). -/
structure PipelineDef where
  nodes : List Node
  edges : List Edge
  deriving DecidableEq, Repr

/-- The world outside the engine: decryption, database lookups, connector
reads, the dynamic execution of generated code, and the code-synthesis
repair oracle (`fix_transformation_code`; `none` models a repair failure).
All of it is deterministic state the embedded functions consume. -/
structure Env where
  decrypt : String → String
  /-- Modelled from the spec: `ETLService._build_connection_string` is
  called by `load_source_data` and `write_sink_data` but its definition is
  not part of the sources; per the spec the connector layer fully contains
  kind-specific URL construction, so it is abstracted as a function of the
  backend kind and the (decrypted) configuration. -/
  buildConnectionString : String → Config → String
  findDatasource : Nat → Option DataSource
  findPipeline : Nat → Option PipelineDef
  readJdbc : String → String → String → String → Table
  readBigquery : String → Table
  readStorage : String → String → Table
  definesTransform : Code → Bool
  applyTransform : List String → Code → List (String × Table) → Except PyError Table
  repair : Code → Schema → Schema → Option Code

/-- Python truthiness for an optional string (`None` and `""` are falsy). -/
def optTruthy (o : Option String) : Option String :=
  match o with
  | some s => if s == "" then none else some s
  | none => none

/-- Embedding of `ETLService.load_source_data(datasource, selected_columns,
limit=None)`: decrypts the sensitive configuration keys (with the loop's
unconditional read of `config['credentials_json']`), dispatches on the
linked service kind, then applies column projection (`if selected_columns:`)
and row limiting (`if limit:`). -/
def loadSourceData (env : Env) (ds : DataSource) (selectedColumns : Option (List String))
    (lim : Option Nat) : Except PyError Table := do
  let some ls := ds.linkedService
    | throw (.valueError "Linked Service not found for data source")
  let dbType := ls.serviceType
  let config ← decryptSensitive env.decrypt sensitiveKeys ls.connectionConfig
  let df ←
    if jdbcTypes.contains dbType then do
      let connectionString := env.buildConnectionString dbType config
      let jdbcUrl :=
        if dbType == "postgresql" then
          connectionString.replace "postgresql://" "jdbc:postgresql://"
        else if dbType == "mysql" then
          connectionString.replace "mysql+pymysql://" "jdbc:mysql://"
        else
          connectionString.replace "mssql+pyodbc://" "jdbc:sqlserver://"
      pure (env.readJdbc jdbcUrl ds.tableName
        ((configGet config "username").getD "") ((configGet config "password").getD ""))
    else if dbType == "bigquery" then do
      let projectId := optTruthy (configGet config "project_id")
      let datasetId := (configGet config "dataset_id").getD ""
      let fullTableId0 := datasetId ++ "." ++ ds.tableName
      let fullTableId :=
        match projectId with
        | some p => p ++ "." ++ fullTableId0
        | none => fullTableId0
      pure (env.readBigquery fullTableId)
    else if storageTypes.contains dbType then do
      let path0 := ds.tableName
      let fmt := inferFormat path0
      let path :=
        if dbType == "s3" || dbType == "minio" then normalizeS3Path config path0
        else if dbType == "gcs" then normalizeGcsPath config path0
        else normalizeAdlsPath config path0
      pure (env.readStorage fmt path)
    else
      throw (.valueError ("Unsupported database type: " ++ dbType))
  let df2 ←
    match selectedColumns with
    | some cols => if cols.isEmpty then pure df else df.selectCols cols
    | none => pure df
  let df3 :=
    match lim with
    | some n => if n == 0 then df2 else df2.limitRows n
    | none => df2
  pure df3

/-- Generic association-list lookup (Python dict indexing/`.get`). -/
def alistGet {α : Type} (l : List (String × α)) (k : String) : Option α :=
  (l.find? (fun p => p.1 == k)).map (fun p => p.2)

/-- Generic association-list membership. -/
def alistHas {α : Type} (l : List (String × α)) (k : String) : Bool :=
  l.any (fun p => p.1 == k)

/-- Generic association-list assignment with Python dict overwrite
semantics (in-place update of an existing key, append otherwise). -/
def alistSet {α : Type} (l : List (String × α)) (k : String) (v : α) : List (String × α) :=
  if alistHas l k then
    l.map (fun p => if p.1 == k then (p.1, v) else p)
  else
    l ++ [(k, v)]

/-- The in-memory result cache of one graph walk: node id to DataFrame. -/
abbrev Cache := List (String × Table)

/-- Python truthiness for an optional integer (`None` and `0` are falsy). -/
def optNatTruthy (o : Option Nat) : Option Nat :=
  match o with
  | some n => if n == 0 then none else some n
  | none => none

/-- The directed graph the executor walks, as built by `nx.DiGraph()` from
a pipeline's node and edge lists. -/
structure Graph where
  nodes : List Node
  edges : List Edge
  deriving DecidableEq, Repr

/-- Insert a vertex id if not yet present (matching `add_node`/`add_edge`,
which keep the first insertion position). -/
def insertNew (l : List String) (x : String) : List String :=
  if l.contains x then l else l ++ [x]

/-- Vertex ids in insertion order: node records first, then edge endpoints
that never appeared as node records (`add_edge` auto-creates vertices). -/
def Graph.vertexIds (G : Graph) : List String :=
  G.edges.foldl (fun acc e => insertNew (insertNew acc e.source) e.target)
    (G.nodes.foldl (fun acc n => insertNew acc n.id) [])

/-- The node record attached to a vertex, if any.  Repeated `add_node` for
the same id overwrites the attributes, so the last record wins. -/
def Graph.findNode (G : Graph) (nid : String) : Option Node :=
  (G.nodes.filter (fun n => n.id == nid)).getLast?

/-- First-occurrence deduplication (adjacency sets hold each neighbour once). -/
def dedupFirst (l : List String) : List String := l.foldl insertNew []

/-- Predecessor list of a vertex (`list(G.predecessors(node_id))`). -/
def Graph.preds (G : Graph) (nid : String) : List String :=
  dedupFirst ((G.edges.filter (fun e => e.target == nid)).map (fun e => e.source))

/-- Whether a vertex has no outgoing edge (`G.out_degree(n) == 0`). -/
def Graph.outDegZero (G : Graph) (nid : String) : Bool :=
  !(G.edges.any (fun e => e.source == nid))

/-- In-degree of `n` counting only edges whose source is still in
`remaining` (the shrinking vertex set of Kahn's algorithm). -/
def inDegreeAmong (edges : List Edge) (remaining : List String) (n : String) : Nat :=
  (edges.filter (fun e => e.target == n && remaining.contains e.source)).length

/-- Kahn's algorithm: repeatedly output a remaining vertex of in-degree
zero; if none exists while vertices remain, the graph is cyclic and no
order is returned (`nx.topological_sort` raising `NetworkXUnfeasible`). -/
def topoAux (edges : List Edge) : Nat → List String → List String → Option (List String)
  | 0, remaining, acc => if remaining.isEmpty then some acc.reverse else none
  | fuel + 1, remaining, acc =>
    if remaining.isEmpty then some acc.reverse
    else
      match remaining.find? (fun n => inDegreeAmong edges remaining n == 0) with
      | none => none
      | some n => topoAux edges fuel (remaining.erase n) (n :: acc)

/-- Topological ordering of the graph, `none` when it has a cycle. -/
def Graph.topoSort (G : Graph) : Option (List String) :=
  topoAux G.edges G.vertexIds.length G.vertexIds []

/-- Names bound at top level of the `etl_service` module (its imports and
the `ETLService` class): the content of `globals()` there. -/
def etlModuleGlobals : List String :=
  ["os", "sys", "requests", "List", "Dict", "Any", "Optional", "Tuple",
   "SparkSession", "settings", "ETLService"]

/-- The namespace in which `_execute_graph_nodes` executes generated
transform code: `exec_globals = globals().copy()` followed by binding `F`
and `T` (so the whole module surface, `os`, `sys` and `requests` included,
is visible to the generated code). -/
def runExecNamespace : List String := etlModuleGlobals ++ ["F", "T"]

/-- The namespace in which `preview_transformation` executes generated
code: a fresh dict holding only the bindings `F` and `T`. -/
def previewExecNamespace : List String := ["F", "T"]

/-- Embedding of `ETLService.check_schema_changes`: returns the code to
execute together with a flag recording whether the repair oracle was
invoked.  Persisting the healed code back onto the pipeline is a
non-fatal, logged side effect (any persistence error is swallowed), so it
is not modelled.  A repair failure is caught and the original code is
returned. -/
def checkSchemaChanges (env : Env) (nodeData : NodeData) (inputDfs : List (String × Table))
    (currentCode : Code) : Code × Bool :=
  let savedSchema := nodeData.sourceSchema
  if savedSchema.isEmpty then (currentCode, false)
  else
    let liveSchema := liveSchemaOf inputDfs
    if schemaJsonEq savedSchema liveSchema then (currentCode, false)
    else
      match env.repair currentCode savedSchema liveSchema with
      | some newCode => (newCode, true)
      | none => (currentCode, true)

/-- Execution of (possibly healed) transform code by the pipeline
executor: `exec(generated_code, exec_globals, local_vars)` with
`exec_globals` the copied module globals plus `F`/`T`, then the check that
a `transform` callable was defined, then the call
`transform_func(spark, input_dfs)`. -/
def executeTransformCode (env : Env) (code : Code) (inputDfs : List (String × Table)) :
    Except PyError Table :=
  if env.definesTransform code then env.applyTransform runExecNamespace code inputDfs
  else .error (.valueError "No transform function found in generated code")

/-- Input map for a transform node: each predecessor's table keyed by its
`tableName`, else its `label`, else `node_<id>`.  A predecessor vertex
without a node record raises `KeyError` on the `data` access; a
predecessor without a computed result raises `KeyError` on the cache
access. -/
def buildInputs (G : Graph) (results : Cache) (upstream : List String) :
    Except PyError (List (String × Table)) :=
  upstream.foldlM (fun acc uid =>
    match G.findNode uid with
    | none => .error (.keyError "data")
    | some u =>
      let key := u.data.tableName.getD (u.data.label.getD ("node_" ++ uid))
      match alistGet results uid with
      | none => .error (.keyError uid)
      | some df => pure (alistSet acc key df)) []

/-- Embedding of `ETLService.write_sink_data`, reduced to its dispatch:
the decryption here guards every key with a membership test, and the
actual backend write is an external effect (recorded by the executor as an
`IOEvent`), so only the unsupported-kind failure is observable. -/
def writeSinkData (ds : DataSource) : Except PyError Unit := do
  let some ls := ds.linkedService
    | throw (.valueError "Linked Service not found for sink datasource")
  let dbType := ls.serviceType
  if jdbcTypes.contains dbType then pure ()
  else if dbType == "bigquery" then pure ()
  else if storageTypes.contains dbType then pure ()
  else throw (.valueError ("Unsupported sink database type: " ++ dbType))

/-- Connector-level I/O performed during a run. -/
inductive IOEvent where
  | load (datasourceId : Nat)
  | write (datasourceId : Nat) (tableName : String) (mode : String)
  deriving DecidableEq, Repr

/-- Whether an event is a connector-layer read. -/
def IOEvent.isLoad : IOEvent → Bool
  | .load _ => true
  | .write _ _ _ => false

/-- The source-type vertices of a child graph in topological order
(`[n for n in execution_order_child if ChildG.nodes[n]['type'] == 'source']`);
a vertex without a node record or without a `type` key raises `KeyError`
inside the comprehension. -/
def childSourceNodesAux (childG : Graph) : List String → List String → Except PyError (List String)
  | [], acc => .ok acc
  | n :: rest, acc =>
    match childG.findNode n with
    | none => .error (.keyError "type")
    | some nd =>
      match nd.type with
      | none => .error (.keyError "type")
      | some t => childSourceNodesAux childG rest (if t == "source" then acc ++ [n] else acc)

/-- The comprehension above, started on an empty accumulator. -/
def childSourceNodes (childG : Graph) (order : List String) : Except PyError (List String) :=
  childSourceNodesAux childG order []

/-- Body of the executor's `pipeline` branch, parameterized by the
recursive graph walk: builds the child graph, orders it (an unguarded
`nx.topological_sort`, so a cyclic child propagates the NetworkX error),
picks the first source-type vertex of the order as injection target, seeds
the child cache with the parent-supplied table under that id, runs the
child, and hands the outcome to `childRunPostlude`, which returns the
result of the first vertex with no outgoing edge (falling back to the
injected table when there is none). -/
def childRunResult (childG : Graph) (inputDf : Table) (res : Except PyError Cache) :
    Except PyError Table :=
  match res with
  | .error e => .error e
  | .ok finalChildResults =>
    match childG.vertexIds.filter (fun n => childG.outDegZero n) with
    | [] => .ok inputDf
    | out :: _ =>
      match alistGet finalChildResults out with
      | none => .error (.keyError out)
      | some outDf => .ok outDf

def childRunPostlude (childG : Graph) (inputDf : Table)
    (run : Except PyError Cache × List IOEvent) : Except PyError Table × List IOEvent :=
  (childRunResult childG inputDf run.1, run.2)

def execPipelineNodeWith
    (exec : Graph → List String → Cache → Except PyError Cache × List IOEvent)
    (inputDf : Table) (child : PipelineDef) : Except PyError Table × List IOEvent :=
  let childG : Graph := ⟨child.nodes, child.edges⟩
  match childG.topoSort with
  | none => (.error .networkxUnfeasible, [])
  | some childOrder =>
    match childSourceNodes childG childOrder with
    | .error e => (.error e, [])
    | .ok [] =>
      (.error (.valueError "Child pipeline has no source node to inject data into"), [])
    | .ok (target :: _) =>
      childRunPostlude childG inputDf (exec childG childOrder [(target, inputDf)])

/-- One node dispatch of `_execute_graph_nodes` (the body of the `for`
loop after the already-cached and missing-type skips), parameterized by
the recursive walk used for sub-pipelines: returns the node's error or
the cache extended with the node's result, together with the connector
events this node performed.  A type string matching no branch leaves the
cache untouched (the loop silently moves on). -/
def execNodeStep (env : Env)
    (recurse : Graph → List String → Cache → Except PyError Cache × List IOEvent)
    (G : Graph) (node : Node) (nodeType : String) (nid : String) (results : Cache) :
    Except PyError Cache × List IOEvent :=
  if nodeType == "source" then
    match node.data.datasourceId.bind env.findDatasource with
    | none => (.error (.valueError "Datasource not found"), [])
    | some ds =>
      match loadSourceData env ds node.data.selectedColumns none with
      | .error e => (.error e, [])
      | .ok df => (.ok (alistSet results nid df), [.load ds.id])
  else if nodeType == "transform" then
    if (G.preds nid).isEmpty then
      (.error (.valueError "Transform node has no input"), [])
    else
      match buildInputs G results (G.preds nid) with
      | .error e => (.error e, [])
      | .ok inputDfs =>
        match optTruthy node.data.generatedCode with
        | none => (.error (.valueError "Transform node has no generated code"), [])
        | some code =>
          match executeTransformCode env
              (checkSchemaChanges env node.data inputDfs code).1 inputDfs with
          | .error e => (.error e, [])
          | .ok df => (.ok (alistSet results nid df), [])
  else if nodeType == "sink" then
    match G.preds nid with
    | [] => (.error (.valueError "Sink node has no input"), [])
    | u0 :: _ =>
      match alistGet results u0 with
      | none => (.error (.keyError u0), [])
      | some inputDf =>
        match node.data.datasourceId.bind env.findDatasource with
        | none => (.error (.valueError "Sink Datasource not found"), [])
        | some ds =>
          match writeSinkData ds with
          | .error e => (.error e, [])
          | .ok _ =>
            (.ok (alistSet results nid inputDf),
              [.write ds.id (node.data.tableName.getD "") (node.data.writeMode.getD "append")])
  else if nodeType == "pipeline" then
    match optNatTruthy node.data.pipelineId with
    | none => (.error (.valueError "Pipeline node not configured"), [])
    | some childId =>
      match G.preds nid with
      | [] => (.error (.valueError "Pipeline node has no input"), [])
      | u0 :: _ =>
        match alistGet results u0 with
        | none => (.error (.keyError u0), [])
        | some inputDf =>
          match env.findPipeline childId with
          | none => (.error (.valueError "Child Pipeline not found"), [])
          | some child =>
            match execPipelineNodeWith recurse inputDf child with
            | (.error e, childEvs) => (.error e, childEvs)
            | (.ok outDf, childEvs) => (.ok (alistSet results nid outDf), childEvs)
  else (.ok results, [])

/-- Embedding of `ETLService._execute_graph_nodes`: walks the topological
order, skips vertices already present in the cache (pre-seeded by
sub-pipeline injection) and vertices without a type, dispatches each node
through `execNodeStep`, aborts the walk on the first exception, and
reports the connector I/O performed.  The fuel bounds the total number of
node steps (Python's recursion limit made explicit); exhausting it models
`RecursionError`. -/
def execNodes (env : Env) : Nat → Graph → List String → Cache →
    Except PyError Cache × List IOEvent
  | 0, _, order, results =>
    if order.isEmpty then (.ok results, []) else (.error .recursionError, [])
  | _ + 1, _, [], results => (.ok results, [])
  | fuel + 1, G, nid :: rest, results =>
    if alistHas results nid then execNodes env fuel G rest results
    else
      match G.findNode nid with
      | none => execNodes env fuel G rest results
      | some node =>
        match node.type with
        | none => execNodes env fuel G rest results
        | some nodeType =>
          match execNodeStep env (fun g o c => execNodes env fuel g o c)
              G node nodeType nid results with
          | (.error e, evs) => (.error e, evs)
          | (.ok results2, evs) =>
            let step := execNodes env fuel G rest results2
            (step.1, evs ++ step.2)

/-- The executor's `pipeline` branch at a given fuel. -/
def execPipelineNode (env : Env) (fuel : Nat) (inputDf : Table) (child : PipelineDef) :
    Except PyError Table × List IOEvent :=
  execPipelineNodeWith (execNodes env fuel) inputDf child

/-- The `ETLExecution` audit row as the engine leaves it: the sequence of
statuses persisted over the run, the final status, whether `finished_at`
was set, and the captured error message. -/
structure ExecRecord where
  statusTrace : List String
  status : String
  finishedAtSet : Bool
  errorMessage : Option String
  deriving DecidableEq, Repr

/-- Stand-in for the `traceback.format_exc()` text appended to the error
message. -/
def tracebackSuffix : String := "Traceback (most recent call last): ..."

/-- The `error_msg` string `execute_pipeline` persists on failure. -/
def errorMessageOf (e : PyError) : String := e.str ++ "\n\n" ++ tracebackSuffix

/-- Everything one call to `execute_pipeline` produces: the returned value
or re-raised exception, the finalized execution record, and the connector
I/O trace. -/
structure RunOutcome where
  result : Except PyError String
  record : ExecRecord
  events : List IOEvent
  deriving Repr

/-- Embedding of `ETLService.execute_pipeline`: creates the execution row
with status `running`, fetches the pipeline, rejects an empty node list,
builds the graph, topologically sorts it (raising on cycles), walks the
nodes, and finalizes the row as `completed` or `failed` (setting
`finished_at` and, on failure, the error message) before returning or
re-raising.  `runPipelineBody` is the protected region of the `try`. -/
def runPipelineBody (env : Env) (fuel : Nat) (pipelineId : Nat) :
    Except PyError String × List IOEvent :=
  match env.findPipeline pipelineId with
  | none => (.error (.valueError ("Pipeline " ++ toString pipelineId ++ " not found")), [])
  | some pipeline =>
    if pipeline.nodes.isEmpty then (.error (.valueError "Pipeline has no nodes"), [])
    else
      let G : Graph := ⟨pipeline.nodes, pipeline.edges⟩
      match G.topoSort with
      | none => (.error (.valueError "Pipeline has cycles!"), [])
      | some order =>
        match execNodes env fuel G order [] with
        | (.ok _, evs) => (.ok "Pipeline executed successfully", evs)
        | (.error e, evs) => (.error e, evs)

/-- Finalization of the run: the `except` arm persists `failed` with the
captured message, the success path persists `completed`. -/
def executePipeline (env : Env) (fuel : Nat) (pipelineId : Nat) : RunOutcome :=
  match runPipelineBody env fuel pipelineId with
  | (.ok msg, evs) =>
    { result := .ok msg,
      record := { statusTrace := ["running", "completed"], status := "completed",
                  finishedAtSet := true, errorMessage := none },
      events := evs }
  | (.error e, evs) =>
    { result := .error e,
      record := { statusTrace := ["running", "failed"], status := "failed",
                  finishedAtSet := true, errorMessage := some (errorMessageOf e) },
      events := evs }

/-- External effects reachable from `test_connection`. -/
structure TestEnv where
  decrypt : String → String
  jdbcRead : String → String → Except PyError Table
  storageRead : String → String → Except PyError Table
  listStatus : String → Except PyError Unit

/-- The `is_encrypted` heuristic in `test_connection`. -/
def isEncrypted (s : String) : Bool := s.startsWith "gAAAA"

/-- Decrypt one configuration key when its value looks encrypted. -/
def decryptIfEncrypted (decrypt : String → String) (config : Config) (k : String) : Config :=
  match configGet config k with
  | some v => if isEncrypted v then configSet config k (decrypt v) else config
  | none => config

/-- Test path construction for the `s3`/`minio` sub-branch. -/
def testPathS3 (config : Config) (testPath : String) : String :=
  if testPath == "" then
    match optTruthy (configGet config "bucket") with
    | some bucket => "s3a://" ++ bucket ++ "/"
    | none => "s3a:///"
  else if testPath.startsWith "s3a://" then testPath
  else "s3a://" ++ testPath

/-- Test path construction for the `gcs` sub-branch. -/
def testPathGcs (config : Config) (testPath : String) : String :=
  if testPath == "" then
    match optTruthy (configGet config "bucket") with
    | some bucket => "gs://" ++ bucket ++ "/"
    | none => "gs:///"
  else if testPath.startsWith "gs://" then testPath
  else "gs://" ++ testPath

/-- Body of `ETLService.test_connection` before its enclosing
`try`/`except`.  Two structural properties of the source are visible here:
the `elif db_type == 'adls':` block sits nested *inside* the
`elif db_type in ['s3', 'minio', 'gcs']:` arm, so the outer chain sends
kind `adls` to the final unsupported-kind return; and the
`elif db_type == 'bigquery':` arm evaluates `df.limit(1).collect()`
without ever assigning `df`, raising `NameError`. -/
def testConnectionBody (env : TestEnv) (dbType : String) (config0 : Config)
    (tableName : Option String) : Except PyError (Bool × String) := do
  let config := ["password", "credentials_json", "secret_key", "access_key",
    "account_key"].foldl (decryptIfEncrypted env.decrypt) config0
  if jdbcTypes.contains dbType then do
    let url :=
      if dbType == "postgresql" then
        "jdbc:postgresql://" ++ (configGet config "host").getD "localhost" ++ ":" ++
          (configGet config "port").getD "5432" ++ "/" ++ (configGet config "database").getD ""
      else if dbType == "mysql" then
        "jdbc:mysql://" ++ (configGet config "host").getD "localhost" ++ ":" ++
          (configGet config "port").getD "3306" ++ "/" ++ (configGet config "database").getD ""
      else
        "jdbc:sqlserver://" ++ (configGet config "server").getD "None" ++
          ";databaseName=" ++ (configGet config "database").getD "None"
    let targetTable := (optTruthy tableName).getD "(SELECT 1) as test_connection"
    let _ ← env.jdbcRead url targetTable
    pure (true, "Connection successful")
  else if dbType == "s3" || dbType == "minio" || dbType == "gcs" then do
    let testPath0 := (optTruthy tableName).getD ""
    let testPath :=
      if dbType == "gcs" then testPathGcs config testPath0
      else testPathS3 config testPath0
    match optTruthy tableName with
    | some tn =>
      let _ ← env.storageRead (inferFormat tn) testPath
      pure (true, "Connection successful")
    | none =>
      match env.listStatus testPath with
      | .ok _ => pure (true, "Connection successful")
      | .error e =>
        throw (.valueError ("Failed to access bucket/container: " ++ e.str))
  else if dbType == "bigquery" then
    throw (.nameError "name df is not defined")
  else
    pure (false, "Unsupported database type: " ++ dbType)

/-- Embedding of `ETLService.test_connection`: always returns an
`(ok, message)` pair; any exception raised by the body is caught and
reported as `(False, str(e))`. -/
def testConnection (env : TestEnv) (dbType : String) (config : Config)
    (tableName : Option String) : Bool × String :=
  match testConnectionBody env dbType config tableName with
  | .ok r => r
  | .error e => (false, e.str)

/-- Whether the edge list holds an edge `u -> v`. -/
def hasEdgeB (edges : List Edge) (u v : String) : Bool :=
  edges.any (fun e => e.source == u && e.target == v)

/-- Whether consecutive elements of the list are joined by edges. -/
def chainEdges (edges : List Edge) : List String → Bool
  | [] => true
  | [_] => true
  | u :: v :: rest => hasEdgeB edges u v && chainEdges edges (v :: rest)

/-- Whether the non-empty vertex list `c` forms a directed cycle in `G`
(consecutive edges, plus the closing edge from the last element back to
the first). -/
def isCycleList (G : Graph) (c : List String) : Bool :=
  match c with
  | [] => false
  | x :: _ => chainEdges G.edges (c ++ [x])

/-! Concrete instances used to evaluate the embedded functions. -/

/-- A three-row table with one integer column. -/
def sampleTable : Table :=
  { fields := [⟨"a", "IntegerType"⟩], rows := [["1"], ["2"], ["3"]] }

/-- A table whose schema gained a column (drifted relative to
`sampleTable`). -/
def driftedTable : Table :=
  { fields := [⟨"a", "IntegerType"⟩, ⟨"b", "StringType"⟩], rows := [["1", "x"]] }

/-- A PostgreSQL linked service whose configuration holds the usual
relational keys and nothing else (in particular no `credentials_json`). -/
def pgLinkedService : LinkedService :=
  { serviceType := "postgresql",
    connectionConfig :=
      [("host", "localhost"), ("port", "5432"), ("database", "db"),
       ("username", "u"), ("password", "pw")] }

/-- A datasource over `pgLinkedService` reading table `users`. -/
def pgDataSource : DataSource :=
  { id := 1, tableName := "users", linkedService := some pgLinkedService }

/-- A PostgreSQL linked service whose configuration also carries a
`credentials_json` entry, so the decryption loop does not crash. -/
def pgLinkedServiceWithCreds : LinkedService :=
  { serviceType := "postgresql",
    connectionConfig :=
      [("host", "localhost"), ("port", "5432"), ("database", "db"),
       ("username", "u"), ("password", "pw"), ("credentials_json", "cj")] }

/-- A datasource over `pgLinkedServiceWithCreds`. -/
def pgDataSourceWithCreds : DataSource :=
  { id := 3, tableName := "users", linkedService := some pgLinkedServiceWithCreds }

/-- A deterministic environment: identity decryption, no stored pipelines
or datasources, constant reads, a sandbox that accepts every code string,
and a repair oracle that always returns `repaired`. -/
def sampleEnv : Env :=
  { decrypt := id,
    buildConnectionString := fun dbType _ => dbType ++ "://h:5/db",
    findDatasource := fun _ => none,
    findPipeline := fun _ => none,
    readJdbc := fun _ _ _ _ => sampleTable,
    readBigquery := fun _ => sampleTable,
    readStorage := fun _ _ => sampleTable,
    definesTransform := fun _ => true,
    applyTransform := fun _ _ _ => .ok sampleTable,
    repair := fun _ _ _ => some "repaired" }

/-- An environment whose repair oracle always fails. -/
def failingRepairEnv : Env := { sampleEnv with repair := fun _ _ _ => none }

/-- An environment storing one empty pipeline under id 1. -/
def emptyPipelineEnv : Env :=
  { sampleEnv with
    findPipeline := fun pid => if pid == 1 then some { nodes := [], edges := [] } else none }

/-- A pipeline holding a single node of unrecognized type: the executor
skips it, so a run over this pipeline completes without any I/O. -/
def noopPipeline : PipelineDef :=
  { nodes := [{ id := "A", type := some "noop", data := {} }], edges := [] }

/-- An environment storing `noopPipeline` under id 1. -/
def noopPipelineEnv : Env :=
  { sampleEnv with
    findPipeline := fun pid => if pid == 1 then some noopPipeline else none }

/-- A two-node pipeline whose edges form the cycle `A -> B -> A`. -/
def cyclicPipeline : PipelineDef :=
  { nodes :=
      [{ id := "A", type := some "source", data := { datasourceId := some 1 } },
       { id := "B", type := some "source", data := { datasourceId := some 2 } }],
    edges := [⟨"A", "B"⟩, ⟨"B", "A"⟩] }

/-- An environment storing `cyclicPipeline` under id 1. -/
def cyclicPipelineEnv : Env :=
  { sampleEnv with
    findPipeline := fun pid => if pid == 1 then some cyclicPipeline else none }

/-- A child pipeline whose only source node sits downstream of a transform
node (edge `T -> S`), so its first source in topological order has a
predecessor. -/
def childWithLateSource : PipelineDef :=
  { nodes :=
      [{ id := "T", type := some "transform", data := { generatedCode := some "code" } },
       { id := "S", type := some "source", data := { datasourceId := some 1 } }],
    edges := [⟨"T", "S"⟩] }

/-- The child-pipeline source node used in the injection instances. -/
def injSourceNode : Node :=
  { id := "S", type := some "source", data := { datasourceId := some 7 } }

/-- A child pipeline with a single source node `S` feeding a sink node. -/
def singleSourceChild : PipelineDef :=
  { nodes :=
      [injSourceNode,
       { id := "K", type := some "sink",
         data := { datasourceId := some 2, tableName := some "out", writeMode := some "append" } }],
    edges := [⟨"S", "K"⟩] }

/-- Datasource 2: the sink target of `singleSourceChild`; datasource 7 is
the source configured on `S` (loading either would be observable in the
event trace). -/
def injTestEnv : Env :=
  { sampleEnv with
    findDatasource := fun dsid =>
      if dsid == 2 then some { id := 2, tableName := "out", linkedService := some pgLinkedServiceWithCreds }
      else if dsid == 7 then some pgDataSourceWithCreds
      else none }

/-- Node data recording the schema of `sampleTable` under table name `t`
(the spec's worked example). -/
def driftNodeData : NodeData :=
  { generatedCode := some "orig", sourceSchema := [("t", [("a", "IntegerType")])] }

/-- Inputs whose live schema matches `driftNodeData.sourceSchema`. -/
def matchingInputs : List (String × Table) := [("t", sampleTable)]

/-- Inputs whose live schema gained a column relative to
`driftNodeData.sourceSchema`. -/
def driftedInputs : List (String × Table) := [("t", driftedTable)]

/-! Claim theorems. -/

/-- C1: evaluation of the code at the failing input.  For a relational
(postgresql) datasource whose connection configuration holds the usual
relational keys but no `credentials_json`, `load_source_data` raises
`KeyError` inside the sensitive-key decryption loop before any read is
issued, instead of returning the projected and limited table the claim
describes; the same call with a `credentials_json` entry present does
return the table read from `tableOrPath` with projection and limit
applied, isolating the failure to the decryption loop. -/
theorem c1_relational_load_keyerror :
    loadSourceData sampleEnv pgDataSource (some ["a"]) (some 10) =
      .error (.keyError "credentials_json") ∧
    loadSourceData sampleEnv pgDataSourceWithCreds (some ["a"]) (some 2) =
      .ok { fields := [⟨"a", "IntegerType"⟩], rows := [["1"], ["2"]] } := by
  exact ⟨rfl, rfl⟩

/-- C2 counterexample: the namespace in which a pipeline run executes
generated transform code (`exec_globals = globals().copy()` plus `F`/`T`)
is not populated only with the tabular-computation primitives `F` and `T`:
it also exposes the module's imports `os`, `sys` and `requests`. -/
theorem c2_namespace_counterexample :
    runExecNamespace.all (fun n => n == "F" || n == "T") = false ∧
    runExecNamespace.contains "os" = true ∧
    runExecNamespace.contains "sys" = true ∧
    runExecNamespace.contains "requests" = true := by decide

/-- C2 amended: during a pipeline run the generated code executes in a
copy of the `etl_service` module globals extended with `F` and `T` (so
`os`, `sys` and `requests` are reachable); only `preview_transformation`
uses a namespace holding nothing but `F` and `T`.  The executor hands
exactly `runExecNamespace` to the sandbox. -/
theorem c2_namespace_amended :
    runExecNamespace = etlModuleGlobals ++ ["F", "T"] ∧
    previewExecNamespace.all (fun n => n == "F" || n == "T") = true ∧
    (∀ (env : Env) (code : Code) (inputs : List (String × Table)),
      executeTransformCode env code inputs =
        (if env.definesTransform code then env.applyTransform runExecNamespace code inputs
         else .error (.valueError "No transform function found in generated code"))) :=
  ⟨rfl, by decide, fun _ _ _ => rfl⟩

/-- C4 counterexample: a concrete successful run.  The statuses persisted
on the execution record are `running` then `completed`; no `pending`
status ever appears on the record, refuting the claimed
`Pending -> Running -> Completed` sequence for the record. -/
theorem c4_no_pending_counterexample :
    (executePipeline noopPipelineEnv 2 1).result = .ok "Pipeline executed successfully" ∧
    (executePipeline noopPipelineEnv 2 1).record.statusTrace = ["running", "completed"] ∧
    "pending" ∉ (executePipeline noopPipelineEnv 2 1).record.statusTrace :=
  ⟨rfl, rfl, by decide⟩

/-- C4 amended: the execution record is created as `running` and mutated
exactly once to `completed` (successful run) or `failed` (failing run),
with `finished_at` set at that terminal transition; no run leaves the
record in `running`. -/
theorem c4_amended_status_machine (env : Env) (fuel pid : Nat) :
    (executePipeline env fuel pid).record.statusTrace =
      ["running", (executePipeline env fuel pid).record.status] ∧
    (executePipeline env fuel pid).record.status =
      (match (executePipeline env fuel pid).result with
       | .ok _ => "completed"
       | .error _ => "failed") ∧
    (executePipeline env fuel pid).record.finishedAtSet = true ∧
    (executePipeline env fuel pid).record.status ≠ "running" := by
  rcases h : runPipelineBody env fuel pid with ⟨r, evs⟩
  cases r <;> refine ⟨by simp [executePipeline, h], by simp [executePipeline, h],
    by simp [executePipeline, h], by simp [executePipeline, h]⟩

/-- C9: running a pipeline whose node list is empty raises the
empty-pipeline error (`ValueError("Pipeline has no nodes")`) and
finalizes the execution record with status `failed` and a non-empty error
message. -/
theorem c9_empty_pipeline (env : Env) (fuel pid : Nat) (p : PipelineDef)
    (hp : env.findPipeline pid = some p) (hempty : p.nodes = []) :
    (executePipeline env fuel pid).result = .error (.valueError "Pipeline has no nodes") ∧
    (executePipeline env fuel pid).record.status = "failed" ∧
    ∃ m, (executePipeline env fuel pid).record.errorMessage = some m ∧ m ≠ "" := by
  have hbody : runPipelineBody env fuel pid = (.error (.valueError "Pipeline has no nodes"), []) := by
    simp [runPipelineBody, hp, hempty]
  exact ⟨by simp [executePipeline, hbody], by simp [executePipeline, hbody],
    ⟨errorMessageOf (.valueError "Pipeline has no nodes"),
      by simp [executePipeline, hbody], by decide⟩⟩

/-- C9 witness: the theorem applied to a stored empty pipeline. -/
theorem c9_empty_pipeline_witness :
    (executePipeline emptyPipelineEnv 3 1).result = .error (.valueError "Pipeline has no nodes") ∧
    (executePipeline emptyPipelineEnv 3 1).record.status = "failed" ∧
    ∃ m, (executePipeline emptyPipelineEnv 3 1).record.errorMessage = some m ∧ m ≠ "" :=
  c9_empty_pipeline emptyPipelineEnv 3 1 { nodes := [], edges := [] } rfl rfl

/-- C7: when schema drift is detected but the repair call fails, the
schema-drift check returns the original, unhealed code without raising,
and the transform step proceeds to execute exactly that original code. -/
theorem c7_repair_failure_keeps_original (env : Env) (d : NodeData)
    (inputs : List (String × Table)) (code : Code)
    (hs : d.sourceSchema ≠ [])
    (hdiff : schemaJsonEq d.sourceSchema (liveSchemaOf inputs) = false)
    (hfail : env.repair code d.sourceSchema (liveSchemaOf inputs) = none) :
    checkSchemaChanges env d inputs code = (code, true) ∧
    executeTransformCode env (checkSchemaChanges env d inputs code).1 inputs =
      executeTransformCode env code inputs := by
  have hne : d.sourceSchema.isEmpty = false := by
    cases h : d.sourceSchema with
    | nil => exact absurd h hs
    | cons a l => rfl
  have hcheck : checkSchemaChanges env d inputs code = (code, true) := by
    simp only [checkSchemaChanges, hne, hdiff, hfail]
    rfl
  exact ⟨hcheck, by rw [hcheck]⟩

/-- C7 witness: the theorem applied to the drifted concrete inputs with a
failing repair oracle. -/
theorem c7_repair_failure_witness :
    checkSchemaChanges failingRepairEnv driftNodeData driftedInputs "orig" = ("orig", true) ∧
    executeTransformCode failingRepairEnv
        (checkSchemaChanges failingRepairEnv driftNodeData driftedInputs "orig").1 driftedInputs =
      executeTransformCode failingRepairEnv "orig" driftedInputs :=
  c7_repair_failure_keeps_original failingRepairEnv driftNodeData driftedInputs "orig"
    (by decide) (by decide) rfl

/-- C10: `test_connection` answers kinds `adls` and `bigquery` with a
failure pair instead of testing them: the `adls` handling block is nested
inside the `s3`/`minio`/`gcs` arm, so kind `adls` reaches the final
unsupported-kind return, and the `bigquery` arm reads the never-assigned
local `df`, whose `NameError` is caught and reported; in both cases an
`(ok, message)` pair is returned rather than an exception thrown. -/
theorem c10_unreachable_backend_kinds (env : TestEnv) (config : Config) (target : Option String) :
    testConnection env "adls" config target = (false, "Unsupported database type: adls") ∧
    testConnection env "bigquery" config target = (false, "name df is not defined") :=
  ⟨rfl, rfl⟩

theorem mem_insertNew_of_mem {l : List String} {x : String} (y : String) (h : x ∈ l) :
    x ∈ insertNew l y := by
  unfold insertNew
  split
  · exact h
  · exact List.mem_append.mpr (.inl h)

theorem mem_insertNew_self (l : List String) (x : String) : x ∈ insertNew l x := by
  unfold insertNew
  split
  · next hc => exact List.elem_iff.mp hc
  · exact List.mem_append.mpr (.inr (List.mem_singleton.mpr rfl))

theorem mem_foldl_insertNew_init {l init : List String} {x : String} (h : x ∈ init) :
    x ∈ l.foldl insertNew init := by
  induction l generalizing init with
  | nil => exact h
  | cons a l ih => exact ih (mem_insertNew_of_mem a h)

theorem mem_foldl_insertNew_of_mem {l init : List String} {x : String} (h : x ∈ l) :
    x ∈ l.foldl insertNew init := by
  induction l generalizing init with
  | nil => simp at h
  | cons a l ih =>
    rw [List.foldl_cons]
    rcases List.mem_cons.mp h with rfl | h2
    · exact mem_foldl_insertNew_init (mem_insertNew_self _ _)
    · exact ih h2

theorem mem_foldl_insertNew_edges {es : List Edge} {init : List String} {x : String}
    (h : x ∈ init) :
    x ∈ es.foldl (fun acc e => insertNew (insertNew acc e.source) e.target) init := by
  induction es generalizing init with
  | nil => exact h
  | cons e es ih => exact ih (mem_insertNew_of_mem _ (mem_insertNew_of_mem _ h))

theorem nodeId_mem_vertexIds {G : Graph} {x : String} (h : x ∈ G.nodes.map Node.id) :
    x ∈ G.vertexIds := by
  unfold Graph.vertexIds
  apply mem_foldl_insertNew_edges
  have hfold :
      G.nodes.foldl (fun acc n => insertNew acc n.id) [] =
        (G.nodes.map Node.id).foldl insertNew [] := (List.foldl_map Node.id insertNew G.nodes []).symm
  rw [hfold]
  exact mem_foldl_insertNew_of_mem h

theorem chainEdges_pred (edges : List Edge) :
    ∀ l : List String, chainEdges edges l = true →
      ∀ v ∈ l.drop 1, ∃ u ∈ l, hasEdgeB edges u v = true := by
  intro l
  induction l with
  | nil => intro _ v hv; simp at hv
  | cons u rest ih =>
    cases rest with
    | nil => intro _ v hv; simp at hv
    | cons w rest2 =>
      intro hchain v hv
      simp only [chainEdges, Bool.and_eq_true] at hchain
      simp only [List.drop_succ_cons, List.drop_zero] at hv
      rcases List.mem_cons.mp hv with rfl | hv2
      · exact ⟨u, List.mem_cons_self _ _, hchain.1⟩
      · obtain ⟨x, hx, he⟩ := ih hchain.2 v (by simpa using hv2)
        exact ⟨x, List.mem_cons_of_mem _ hx, he⟩

theorem cycle_all_have_pred {G : Graph} {c : List String} (h : isCycleList G c = true) :
    c ≠ [] ∧ ∀ v ∈ c, ∃ u ∈ c, hasEdgeB G.edges u v = true := by
  cases c with
  | nil => simp [isCycleList] at h
  | cons x rest =>
    refine ⟨by simp, ?_⟩
    intro v hv
    have hchain : chainEdges G.edges ((x :: rest) ++ [x]) = true := h
    have hv2 : v ∈ ((x :: rest) ++ [x]).drop 1 := by
      simp only [List.cons_append, List.drop_succ_cons, List.drop_zero]
      rcases List.mem_cons.mp hv with rfl | hv3
      · exact List.mem_append.mpr (.inr (List.mem_singleton.mpr rfl))
      · exact List.mem_append.mpr (.inl hv3)
    obtain ⟨u, hu, he⟩ := chainEdges_pred G.edges _ hchain v hv2
    rcases List.mem_append.mp hu with h1 | h1
    · exact ⟨u, h1, he⟩
    · have : u = x := List.mem_singleton.mp h1
      exact ⟨u, this ▸ List.mem_cons_self _ _, he⟩

theorem inDegreeAmong_ne_zero {edges : List Edge} {remaining : List String} {u v : String}
    (hu : u ∈ remaining) (he : hasEdgeB edges u v = true) :
    inDegreeAmong edges remaining v ≠ 0 := by
  obtain ⟨e, hmem, hprop⟩ := List.any_eq_true.mp he
  rw [Bool.and_eq_true] at hprop
  have hsrc : e.source = u := by simpa using hprop.1
  have htgt : e.target = v := by simpa using hprop.2
  have hfilter : e ∈ edges.filter (fun e => e.target == v && remaining.contains e.source) := by
    refine List.mem_filter.mpr ⟨hmem, ?_⟩
    rw [Bool.and_eq_true]
    exact ⟨by simp [htgt], by rw [hsrc]; exact List.elem_iff.mpr hu⟩
  intro hzero
  unfold inDegreeAmong at hzero
  rw [List.length_eq_zero] at hzero
  rw [hzero] at hfilter
  simp at hfilter

theorem topoAux_cycle_none (edges : List Edge) (S : List String)
    (hpred : ∀ v ∈ S, ∃ u ∈ S, hasEdgeB edges u v = true) (hne : S ≠ []) :
    ∀ (fuel : Nat) (remaining acc : List String), (∀ s ∈ S, s ∈ remaining) →
      topoAux edges fuel remaining acc = none := by
  intro fuel
  induction fuel with
  | zero =>
    intro remaining acc hsub
    cases S with
    | nil => exact absurd rfl hne
    | cons s0 S2 =>
      cases hrem : remaining with
      | nil =>
        have := hsub s0 (List.mem_cons_self _ _)
        rw [hrem] at this
        simp at this
      | cons r0 rest => simp [topoAux]
  | succ fuel ih =>
    intro remaining acc hsub
    cases hrem : remaining with
    | nil =>
      cases S with
      | nil => exact absurd rfl hne
      | cons s0 S2 =>
        have := hsub s0 (List.mem_cons_self _ _)
        rw [hrem] at this
        simp at this
    | cons r0 rest =>
      subst hrem
      simp only [topoAux, List.isEmpty_cons]
      cases hfind : (r0 :: rest).find? (fun n => inDegreeAmong edges (r0 :: rest) n == 0) with
      | none => simp [hfind]
      | some n =>
        have hn0 : inDegreeAmong edges (r0 :: rest) n = 0 := by
          have h2 := List.find?_some hfind
          simpa using h2
        have hnS : n ∉ S := by
          intro hnS
          obtain ⟨u, huS, hedge⟩ := hpred n hnS
          exact inDegreeAmong_ne_zero (hsub u huS) hedge hn0
        have hsub2 : ∀ s ∈ S, s ∈ (r0 :: rest).erase n := by
          intro s hsS
          exact (List.mem_erase_of_ne (fun heq => hnS (by rw [← heq]; exact hsS))).mpr (hsub s hsS)
        simp only [hfind, Bool.false_eq_true, if_false]
        exact ih _ _ hsub2

/-- C5: for any stored pipeline whose node/edge set contains a cycle
(through its declared nodes), the run raises the cyclic-pipeline error
(`ValueError("Pipeline has cycles!")`), the graph builder returns no
order at all, and no connector load or write happens (the event trace is
empty). -/
theorem c5_cyclic_pipeline (env : Env) (fuel pid : Nat) (p : PipelineDef) (c : List String)
    (hp : env.findPipeline pid = some p)
    (hcyc : isCycleList ⟨p.nodes, p.edges⟩ c = true)
    (hids : ∀ v ∈ c, v ∈ p.nodes.map Node.id) :
    Graph.topoSort ⟨p.nodes, p.edges⟩ = none ∧
    (executePipeline env fuel pid).result = .error (.valueError "Pipeline has cycles!") ∧
    (executePipeline env fuel pid).events = [] := by
  obtain ⟨hcne, hpredc⟩ := cycle_all_have_pred hcyc
  have hsubV : ∀ s ∈ c, s ∈ (Graph.mk p.nodes p.edges).vertexIds := by
    intro s hs
    exact nodeId_mem_vertexIds (hids s hs)
  have htopo : Graph.topoSort ⟨p.nodes, p.edges⟩ = none := by
    unfold Graph.topoSort
    exact topoAux_cycle_none p.edges c hpredc hcne _ _ _ hsubV
  have hnodes : p.nodes.isEmpty = false := by
    cases hc2 : c with
    | nil => exact absurd hc2 hcne
    | cons c0 c2 =>
      have hmem := hids c0 (hc2 ▸ List.mem_cons_self _ _)
      cases hn : p.nodes with
      | nil => rw [hn] at hmem; simp at hmem
      | cons a l => rfl
  have hbody : runPipelineBody env fuel pid = (.error (.valueError "Pipeline has cycles!"), []) := by
    simp [runPipelineBody, hp, hnodes, htopo]
  exact ⟨htopo, by simp [executePipeline, hbody], by simp [executePipeline, hbody]⟩

/-- C3 counterexample: in the child pipeline with transform node `T`,
source node `S` and edge `T -> S`, the unique topological order is
`[T, S]`, and the injection target chosen is `S`, the first source-type
node of that order, even though `S` has predecessor `T` (so no
source-type node without predecessors exists); the run does not raise the
no-injection-point error but proceeds into the child walk (and fails
there on the input-less transform node), refuting the claimed
no-predecessor condition on the target. -/
theorem c3_injection_counterexample :
    Graph.topoSort ⟨childWithLateSource.nodes, childWithLateSource.edges⟩ = some ["T", "S"] ∧
    childSourceNodes ⟨childWithLateSource.nodes, childWithLateSource.edges⟩ ["T", "S"] =
      .ok ["S"] ∧
    Graph.preds ⟨childWithLateSource.nodes, childWithLateSource.edges⟩ "S" = ["T"] ∧
    (execPipelineNode sampleEnv 4 sampleTable childWithLateSource).1 =
      .error (.valueError "Transform node has no input") :=
  ⟨rfl, rfl, rfl, rfl⟩

/-- C3 amended: the injection target is the first source-type node in the
child's topological order, regardless of whether it has predecessors; the
child's result cache is seeded with exactly the parent predecessor's
table under that node's id before the recursive walk; if the child has no
source node, the no-injection-point `ValueError` is raised. -/
theorem c3_injection_amended
    (exec : Graph → List String → Cache → Except PyError Cache × List IOEvent)
    (inputDf : Table) (child : PipelineDef) (ord srcs : List String)
    (hord : Graph.topoSort ⟨child.nodes, child.edges⟩ = some ord)
    (hsrc : childSourceNodes ⟨child.nodes, child.edges⟩ ord = .ok srcs) :
    (srcs = [] → execPipelineNodeWith exec inputDf child =
      (.error (.valueError "Child pipeline has no source node to inject data into"), [])) ∧
    (∀ t rest, srcs = t :: rest →
      execPipelineNodeWith exec inputDf child =
        childRunPostlude ⟨child.nodes, child.edges⟩ inputDf
          (exec ⟨child.nodes, child.edges⟩ ord [(t, inputDf)])) := by
  constructor
  · intro h
    subst h
    simp [execPipelineNodeWith, hord, hsrc]
  · intro t rest h
    subst h
    simp [execPipelineNodeWith, hord, hsrc]

/-- C3 witness: the amended theorem applied to the concrete child with
topological order `[T, S]`, whose chosen target is `S` and whose cache is
seeded with the parent table under `S`. -/
theorem c3_injection_amended_witness :
    execPipelineNodeWith (execNodes sampleEnv 3) sampleTable childWithLateSource =
      childRunPostlude ⟨childWithLateSource.nodes, childWithLateSource.edges⟩ sampleTable
        (execNodes sampleEnv 3 ⟨childWithLateSource.nodes, childWithLateSource.edges⟩
          ["T", "S"] [("S", sampleTable)]) :=
  (c3_injection_amended (execNodes sampleEnv 3) sampleTable childWithLateSource
    ["T", "S"] ["S"] rfl rfl).2 "S" [] rfl

theorem sorted_perm_nodup_keys_eq {α : Type} :
    ∀ (l₁ l₂ : List (String × α)), l₁.Perm l₂ →
      l₁.Sorted keyLE → l₂.Sorted keyLE → (l₁.map Prod.fst).Nodup → l₁ = l₂ := by
  intro l₁
  induction l₁ with
  | nil => intro l₂ hp _ _ _; exact hp.nil_eq
  | cons a t₁ ih =>
    intro l₂ hp hs₁ hs₂ hn
    cases l₂ with
    | nil => exact absurd hp.symm.nil_eq (by simp)
    | cons b t₂ =>
      obtain ⟨hs₁h, hs₁t⟩ := List.sorted_cons.mp hs₁
      obtain ⟨hs₂h, hs₂t⟩ := List.sorted_cons.mp hs₂
      rw [List.map_cons, List.nodup_cons] at hn
      obtain ⟨hna, hnt⟩ := hn
      have hab : a = b := by
        have ha2 : a ∈ b :: t₂ := hp.mem_iff.mp (List.mem_cons_self _ _)
        rcases List.mem_cons.mp ha2 with h | hat2
        · exact h
        · have hb1 : b ∈ a :: t₁ := hp.mem_iff.mpr (List.mem_cons_self _ _)
          rcases List.mem_cons.mp hb1 with h | hbt1
          · exact h.symm
          · have h1 : keyLE a b := hs₁h b hbt1
            have h2 : keyLE b a := hs₂h a hat2
            have hkey : a.1 = b.1 := strLeB_antisymm h1 h2
            exact absurd (List.mem_map.mpr ⟨b, hbt1, hkey.symm⟩) hna
      subst hab
      rw [ih t₂ hp.cons_inv hs₁t hs₂t hnt]

theorem canonSchema_perm_eq {s₁ s₂ : Schema}
    (hperm : (s₁.map (fun p => (p.1, canonInner p.2))).Perm
      (s₂.map (fun p => (p.1, canonInner p.2))))
    (hnodup : (s₁.map Prod.fst).Nodup) :
    canonSchema s₁ = canonSchema s₂ := by
  have hp : (canonSchema s₁).Perm (canonSchema s₂) := by
    unfold canonSchema
    exact (List.perm_insertionSort keyLE _).trans
      (hperm.trans (List.perm_insertionSort keyLE _).symm)
  have hkeys : ((canonSchema s₁).map Prod.fst).Nodup := by
    have hpk : ((canonSchema s₁).map Prod.fst).Perm
        ((s₁.map (fun p => (p.1, canonInner p.2))).map Prod.fst) :=
      (List.perm_insertionSort keyLE _).map Prod.fst
    have heq : (s₁.map (fun p => (p.1, canonInner p.2))).map Prod.fst = s₁.map Prod.fst := by
      rw [List.map_map]; rfl
    rw [heq] at hpk
    exact hpk.nodup_iff.mpr hnodup
  exact sorted_perm_nodup_keys_eq _ _ hp
    (List.sorted_insertionSort keyLE _) (List.sorted_insertionSort keyLE _) hkeys

/-- C6: for a transform node with a non-empty recorded `sourceSchema`, the
schema-drift check compares the recorded schema against the live input
schemas up to key order (the key-sorted canonical forms, matching the
`json.dumps(..., sort_keys=True)` comparison, are invariant under
reordering of a schema with distinct table keys): when the comparison
holds it returns the original code and never invokes repair; when it
fails it invokes repair and, when repair succeeds, returns the repaired
code. -/
theorem c6_schema_drift_check (env : Env) (d : NodeData) (inputs : List (String × Table))
    (code r : Code) (hs : d.sourceSchema ≠ []) :
    (schemaJsonEq d.sourceSchema (liveSchemaOf inputs) = true →
      checkSchemaChanges env d inputs code = (code, false)) ∧
    (schemaJsonEq d.sourceSchema (liveSchemaOf inputs) = false →
      env.repair code d.sourceSchema (liveSchemaOf inputs) = some r →
      checkSchemaChanges env d inputs code = (r, true)) ∧
    (∀ s₁ s₂ : Schema,
      (s₁.map (fun p => (p.1, canonInner p.2))).Perm (s₂.map (fun p => (p.1, canonInner p.2))) →
      (s₁.map Prod.fst).Nodup → schemaJsonEq s₁ s₂ = true) := by
  have hne : d.sourceSchema.isEmpty = false := by
    cases h : d.sourceSchema with
    | nil => exact absurd h hs
    | cons a l => rfl
  refine ⟨?_, ?_, ?_⟩
  · intro heq
    simp only [checkSchemaChanges, hne, heq]
    rfl
  · intro hdiff hrep
    simp only [checkSchemaChanges, hne, hdiff, hrep]
    rfl
  · intro s₁ s₂ hp hn
    have hc := canonSchema_perm_eq hp hn
    simp [schemaJsonEq, hc]

/-- C6 witness: the spec's worked example.  With recorded schema
`t: a int`, matching live inputs keep the code and skip repair; a live
schema that gained column `b` triggers repair and returns the repaired
code; and the comparison is insensitive to column order. -/
theorem c6_schema_drift_witness :
    checkSchemaChanges sampleEnv driftNodeData matchingInputs "orig" = ("orig", false) ∧
    checkSchemaChanges sampleEnv driftNodeData driftedInputs "orig" = ("repaired", true) ∧
    schemaJsonEq [("t", [("a", "IntegerType"), ("b", "StringType")])]
      [("t", [("b", "StringType"), ("a", "IntegerType")])] = true :=
  ⟨(c6_schema_drift_check sampleEnv driftNodeData matchingInputs "orig" "repaired"
      (by decide)).1 (by decide),
   (c6_schema_drift_check sampleEnv driftNodeData driftedInputs "orig" "repaired"
      (by decide)).2.1 (by decide) rfl,
   (c6_schema_drift_check sampleEnv driftNodeData matchingInputs "orig" "repaired"
      (by decide)).2.2
      [("t", [("a", "IntegerType"), ("b", "StringType")])]
      [("t", [("b", "StringType"), ("a", "IntegerType")])]
      (by
        have h : ([("t", [("a", "IntegerType"), ("b", "StringType")])].map
              (fun p => (p.1, canonInner p.2))) =
            ([("t", [("b", "StringType"), ("a", "IntegerType")])].map
              (fun p => (p.1, canonInner p.2))) := by decide
        rw [h])
      (by decide)⟩

theorem find?_append_some {α : Type} {p : α → Bool} {l₁ l₂ : List α} {a : α}
    (h : l₁.find? p = some a) : (l₁ ++ l₂).find? p = some a := by
  rw [List.find?_append, h]
  rfl

theorem alistGet_append_left {α : Type} {c : List (String × α)} {k : String} {v : α}
    (h : alistGet c k = some v) (tail : List (String × α)) :
    alistGet (c ++ tail) k = some v := by
  unfold alistGet at h ⊢
  obtain ⟨p, hp, hv⟩ := Option.map_eq_some'.mp h
  rw [find?_append_some hp]
  simp [hv]

theorem alistGet_set_preserve {α : Type} {c : List (String × α)} {k k2 : String} {v2 : α}
    (hno : alistHas c k = false) (hget : alistGet c k2 = some v2) (v : α) :
    alistGet (alistSet c k v) k2 = some v2 := by
  have hset : alistSet c k v = c ++ [(k, v)] := by
    unfold alistSet
    rw [hno]
    simp
  rw [hset]
  exact alistGet_append_left hget _

theorem alistHas_set_mono {α : Type} {c : List (String × α)} {k2 : String}
    (h : alistHas c k2 = true) (k : String) (v : α) :
    alistHas (alistSet c k v) k2 = true := by
  unfold alistSet
  split
  · unfold alistHas at h ⊢
    obtain ⟨p, hp, hpk⟩ := List.any_eq_true.mp h
    refine List.any_eq_true.mpr
      ⟨if p.1 == k then (p.1, v) else p,
        List.mem_map_of_mem (fun q => if q.1 == k then (q.1, v) else q) hp, ?_⟩
    by_cases hk : (p.1 == k) = true
    · rw [if_pos hk]
      exact hpk
    · rw [if_neg (by simpa using hk)]
      exact hpk
  · unfold alistHas at h ⊢
    rw [List.any_append, h]
    rfl

theorem findNode_mem {G : Graph} {nid : String} {node : Node}
    (h : G.findNode nid = some node) : node ∈ G.nodes ∧ node.id = nid := by
  unfold Graph.findNode at h
  have hopt : node ∈ (G.nodes.filter (fun n => n.id == nid)).getLast? := by
    rw [Option.mem_def]
    exact h
  obtain ⟨hne, heq⟩ := List.mem_getLast?_eq_getLast hopt
  have hmem : node ∈ G.nodes.filter (fun n => n.id == nid) := by
    rw [heq]
    exact List.getLast_mem hne
  obtain ⟨h1, h2⟩ := List.mem_filter.mp hmem
  exact ⟨h1, by simpa using h2⟩

theorem childSourceNodesAux_mem {childG : Graph} :
    ∀ (order acc srcs : List String), childSourceNodesAux childG order acc = .ok srcs →
      ∀ s ∈ srcs, s ∈ acc ∨ ∃ nd, childG.findNode s = some nd ∧ nd.type = some "source" := by
  intro order
  induction order with
  | nil =>
    intro acc srcs h s hs
    simp only [childSourceNodesAux, Except.ok.injEq] at h
    exact .inl (h ▸ hs)
  | cons n rest ih =>
    intro acc srcs h s hs
    cases hfind : childG.findNode n with
    | none => simp [childSourceNodesAux, hfind] at h
    | some nd =>
      cases htype : nd.type with
      | none => simp [childSourceNodesAux, hfind, htype] at h
      | some t =>
        have h2 : childSourceNodesAux childG rest (if t == "source" then acc ++ [n] else acc) =
            .ok srcs := by
          simpa [childSourceNodesAux, hfind, htype] using h
        rcases ih _ _ h2 s hs with hacc | hsrc
        · by_cases ht : (t == "source") = true
          · rw [if_pos ht] at hacc
            rcases List.mem_append.mp hacc with h3 | h3
            · exact .inl h3
            · right
              have hsn : s = n := List.mem_singleton.mp h3
              subst hsn
              exact ⟨nd, hfind, by rw [htype, show t = "source" by simpa using ht]⟩
          · rw [if_neg (by simpa using ht)] at hacc
            exact .inl hacc
        · exact .inr hsrc

theorem childSourceNodes_elem {childG : Graph} {order srcs : List String}
    (h : childSourceNodes childG order = .ok srcs) :
    ∀ s ∈ srcs, ∃ nd, childG.findNode s = some nd ∧ nd.type = some "source" := by
  intro s hs
  rcases childSourceNodesAux_mem order [] srcs h s hs with hacc | hsrc
  · simp at hacc
  · exact hsrc

theorem childRunPostlude_events (g : Graph) (t : Table)
    (r : Except PyError Cache × List IOEvent) : (childRunPostlude g t r).2 = r.2 := rfl

theorem execNodeStep_frame (env : Env)
    (recurse : Graph → List String → Cache → Except PyError Cache × List IOEvent)
    (G : Graph) (node : Node) (nodeType : String) (nid : String) (results : Cache)
    (hns : nodeType ≠ "source") (hnp : nodeType ≠ "pipeline") :
    ((execNodeStep env recurse G node nodeType nid results).2.all (fun ev => !ev.isLoad) = true) ∧
    (∀ results2,
      (execNodeStep env recurse G node nodeType nid results).1 = .ok results2 →
      results2 = results ∨ ∃ df, results2 = alistSet results nid df) := by
  have h1 : (nodeType == "source") = false := by simpa using hns
  have h4 : (nodeType == "pipeline") = false := by simpa using hnp
  by_cases h2 : (nodeType == "transform") = true
  · by_cases hup : (G.preds nid).isEmpty = true
    · refine ⟨by simp [execNodeStep, h1, h2, hup], ?_⟩
      intro results2 hok
      simp [execNodeStep, h1, h2, hup] at hok
    · cases hbi : buildInputs G results (G.preds nid) with
      | error e =>
        refine ⟨by simp [execNodeStep, h1, h2, hup, hbi], ?_⟩
        intro results2 hok
        simp [execNodeStep, h1, h2, hup, hbi] at hok
      | ok inputDfs =>
        cases hcode : optTruthy node.data.generatedCode with
        | none =>
          refine ⟨by simp [execNodeStep, h1, h2, hup, hbi, hcode], ?_⟩
          intro results2 hok
          simp [execNodeStep, h1, h2, hup, hbi, hcode] at hok
        | some code =>
          cases hex : executeTransformCode env
              (checkSchemaChanges env node.data inputDfs code).1 inputDfs with
          | error e =>
            refine ⟨by simp [execNodeStep, h1, h2, hup, hbi, hcode, hex], ?_⟩
            intro results2 hok
            simp [execNodeStep, h1, h2, hup, hbi, hcode, hex] at hok
          | ok df =>
            refine ⟨by simp [execNodeStep, h1, h2, hup, hbi, hcode, hex], ?_⟩
            intro results2 hok
            simp [execNodeStep, h1, h2, hup, hbi, hcode, hex] at hok
            exact .inr ⟨df, hok.symm⟩
  · by_cases h3 : (nodeType == "sink") = true
    · cases hpreds : G.preds nid with
      | nil =>
        refine ⟨by simp [execNodeStep, h1, h2, h3, hpreds], ?_⟩
        intro results2 hok
        simp [execNodeStep, h1, h2, h3, hpreds] at hok
      | cons u0 us =>
        cases hget : alistGet results u0 with
        | none =>
          refine ⟨by simp [execNodeStep, h1, h2, h3, hpreds, hget], ?_⟩
          intro results2 hok
          simp [execNodeStep, h1, h2, h3, hpreds, hget] at hok
        | some inputDf =>
          cases hds : node.data.datasourceId.bind env.findDatasource with
          | none =>
            refine ⟨by simp [execNodeStep, h1, h2, h3, hpreds, hget, hds], ?_⟩
            intro results2 hok
            simp [execNodeStep, h1, h2, h3, hpreds, hget, hds] at hok
          | some ds =>
            cases hw : writeSinkData ds with
            | error e =>
              refine ⟨by simp [execNodeStep, h1, h2, h3, hpreds, hget, hds, hw], ?_⟩
              intro results2 hok
              simp [execNodeStep, h1, h2, h3, hpreds, hget, hds, hw] at hok
            | ok u =>
              refine ⟨by simp [execNodeStep, h1, h2, h3, hpreds, hget, hds, hw,
                IOEvent.isLoad], ?_⟩
              intro results2 hok
              simp [execNodeStep, h1, h2, h3, hpreds, hget, hds, hw] at hok
              exact .inr ⟨inputDf, hok.symm⟩
    · refine ⟨by simp [execNodeStep, h1, h2, h3, h4], ?_⟩
      intro results2 hok
      simp [execNodeStep, h1, h2, h3, h4] at hok
      exact .inl hok.symm

theorem execNodes_frame (env : Env) :
    ∀ (fuel : Nat) (G : Graph) (order : List String) (results : Cache),
      (∀ n ∈ G.nodes, n.type ≠ some "pipeline") →
      (∀ n ∈ G.nodes, n.type = some "source" → alistHas results n.id = true) →
      ((execNodes env fuel G order results).2.all (fun ev => !ev.isLoad) = true) ∧
      (∀ k v, alistGet results k = some v →
        ∀ cache2, (execNodes env fuel G order results).1 = .ok cache2 →
          alistGet cache2 k = some v) := by
  intro fuel
  induction fuel with
  | zero =>
    intro G order results _ _
    cases order with
    | nil =>
      refine ⟨by simp [execNodes], ?_⟩
      intro k v hget cache2 hok
      simp [execNodes] at hok
      rw [← hok]
      exact hget
    | cons a l =>
      refine ⟨by simp [execNodes], ?_⟩
      intro k v hget cache2 hok
      simp [execNodes] at hok
  | succ fuel ih =>
    intro G order results hnopipe hsrcCached
    cases order with
    | nil =>
      refine ⟨by simp [execNodes], ?_⟩
      intro k v hget cache2 hok
      simp [execNodes] at hok
      rw [← hok]
      exact hget
    | cons nid rest =>
      by_cases hhas : alistHas results nid = true
      · have hstep : execNodes env (fuel + 1) G (nid :: rest) results =
            execNodes env fuel G rest results := by
          simp [execNodes, hhas]
        rw [hstep]
        exact ih G rest results hnopipe hsrcCached
      · have hhasF : alistHas results nid = false := by simpa using hhas
        cases hfind : G.findNode nid with
        | none =>
          have hstep : execNodes env (fuel + 1) G (nid :: rest) results =
              execNodes env fuel G rest results := by
            simp [execNodes, hhasF, hfind]
          rw [hstep]
          exact ih G rest results hnopipe hsrcCached
        | some node =>
          obtain ⟨hmem, hid⟩ := findNode_mem hfind
          cases htype : node.type with
          | none =>
            have hstep : execNodes env (fuel + 1) G (nid :: rest) results =
                execNodes env fuel G rest results := by
              simp [execNodes, hhasF, hfind, htype]
            rw [hstep]
            exact ih G rest results hnopipe hsrcCached
          | some nodeType =>
            have hns : nodeType ≠ "source" := by
              intro hcontra
              have hcached := hsrcCached node hmem (by rw [htype, hcontra])
              rw [hid] at hcached
              rw [hcached] at hhasF
              exact absurd hhasF (by simp)
            have hnp : nodeType ≠ "pipeline" := by
              intro hcontra
              exact hnopipe node hmem (by rw [htype, hcontra])
            obtain ⟨hevs, hres⟩ := execNodeStep_frame env
              (fun g o c => execNodes env fuel g o c) G node nodeType nid results hns hnp
            rcases hstep : execNodeStep env (fun g o c => execNodes env fuel g o c)
                G node nodeType nid results with ⟨r2, evs⟩
            rw [hstep] at hevs hres
            cases r2 with
            | error e =>
              have heq : execNodes env (fuel + 1) G (nid :: rest) results = (.error e, evs) := by
                simp [execNodes, hhasF, hfind, htype, hstep]
              rw [heq]
              refine ⟨by simpa using hevs, ?_⟩
              intro k v hget cache2 hok
              simp at hok
            | ok results2 =>
              have heq : execNodes env (fuel + 1) G (nid :: rest) results =
                  ((execNodes env fuel G rest results2).1,
                    evs ++ (execNodes env fuel G rest results2).2) := by
                simp [execNodes, hhasF, hfind, htype, hstep]
              rcases hres results2 rfl with hsame | ⟨df, hdf⟩
              · obtain ⟨ih1, ih2⟩ := ih G rest results hnopipe hsrcCached
                rw [heq, hsame]
                refine ⟨?_, ?_⟩
                · rw [List.all_append]
                  simp only [Bool.and_eq_true]
                  exact ⟨by simpa using hevs, ih1⟩
                · intro k v hget cache2 hok
                  exact ih2 k v hget cache2 hok
              · subst hdf
                have hsrc2 : ∀ n ∈ G.nodes, n.type = some "source" →
                    alistHas (alistSet results nid df) n.id = true :=
                  fun n hn ht => alistHas_set_mono (hsrcCached n hn ht) nid df
                obtain ⟨ih1, ih2⟩ := ih G rest (alistSet results nid df) hnopipe hsrc2
                rw [heq]
                refine ⟨?_, ?_⟩
                · rw [List.all_append]
                  simp only [Bool.and_eq_true]
                  exact ⟨by simpa using hevs, ih1⟩
                · intro k v hget cache2 hok
                  exact ih2 k v (alistGet_set_preserve hhasF hget df) cache2 hok

/-- C8: executing a pipeline-type parent node that feeds table `T` into a
child pipeline whose only source node is `S` (and which contains no
further nested pipeline nodes) performs no connector-layer load at all —
in particular none for the datasource configured on `S` — and any
successful walk of the child graph seeded with `T` under `S` leaves `S`
bound in the child's result cache to exactly `T`. -/
theorem c8_subpipeline_injection (env : Env) (fuel : Nat) (T : Table) (child : PipelineDef)
    (S : Node) (hmem : S ∈ child.nodes) (hty : S.type = some "source")
    (honly : ∀ n ∈ child.nodes, n.type = some "source" → n = S)
    (hnopipe : ∀ n ∈ child.nodes, n.type ≠ some "pipeline") :
    ((execPipelineNode env fuel T child).2.all (fun ev => !ev.isLoad) = true) ∧
    (∀ (ord : List String) (fin : Cache) (evs : List IOEvent),
      execNodes env fuel ⟨child.nodes, child.edges⟩ ord [(S.id, T)] = (.ok fin, evs) →
      alistGet fin S.id = some T) := by
  have hsrcCached : ∀ n ∈ (Graph.mk child.nodes child.edges).nodes,
      n.type = some "source" → alistHas [(S.id, T)] n.id = true := by
    intro n hn ht
    have hnS : n = S := honly n hn ht
    subst hnS
    simp [alistHas]
  have hb : ∀ (ord : List String) (fin : Cache) (evs : List IOEvent),
      execNodes env fuel ⟨child.nodes, child.edges⟩ ord [(S.id, T)] = (.ok fin, evs) →
      alistGet fin S.id = some T := by
    intro ord fin evs hrun
    obtain ⟨_, hpres⟩ := execNodes_frame env fuel ⟨child.nodes, child.edges⟩ ord
      [(S.id, T)] hnopipe hsrcCached
    exact hpres S.id T (by simp [alistGet]) fin (by rw [hrun])
  refine ⟨?_, hb⟩
  unfold execPipelineNode execPipelineNodeWith
  cases htopo : (Graph.mk child.nodes child.edges).topoSort with
  | none => simp [htopo]
  | some ord =>
    cases hsrcs : childSourceNodes ⟨child.nodes, child.edges⟩ ord with
    | error e => simp [htopo, hsrcs]
    | ok srcs =>
      cases srcs with
      | nil => simp [htopo, hsrcs]
      | cons t ts =>
        have htS : t = S.id := by
          obtain ⟨nd, hfind, htyp⟩ := childSourceNodes_elem hsrcs t (List.mem_cons_self _ _)
          obtain ⟨hndmem, hndid⟩ := findNode_mem hfind
          have hndS : nd = S := honly nd hndmem htyp
          rw [← hndid, hndS]
        subst htS
        simp only [htopo, hsrcs]
        rw [childRunPostlude_events]
        obtain ⟨hall, _⟩ := execNodes_frame env fuel ⟨child.nodes, child.edges⟩ ord
          [(S.id, T)] hnopipe hsrcCached
        exact hall

/-- C8 witness: the theorem applied to the concrete child `S -> K` (one
source, one sink) with the parent feeding `sampleTable`: the parent-node
execution performs only the sink write, never a load, and the seeded
child walk leaves `S` bound to exactly the injected table. -/
theorem c8_subpipeline_injection_witness :
    ((execPipelineNode injTestEnv 5 sampleTable singleSourceChild).2.all
      (fun ev => !ev.isLoad) = true) ∧
    alistGet [("S", sampleTable), ("K", sampleTable)] injSourceNode.id = some sampleTable :=
  ⟨(c8_subpipeline_injection injTestEnv 5 sampleTable singleSourceChild injSourceNode
      (by decide) rfl (by decide) (by decide)).1,
   (c8_subpipeline_injection injTestEnv 5 sampleTable singleSourceChild injSourceNode
      (by decide) rfl (by decide) (by decide)).2
      ["S", "K"] [("S", sampleTable), ("K", sampleTable)]
      [.write 2 "out" "append"] (by rfl)⟩

/-- C5 witness: the theorem applied to the concrete cyclic pipeline
`A -> B, B -> A`. -/
theorem c5_cyclic_witness :
    Graph.topoSort ⟨cyclicPipeline.nodes, cyclicPipeline.edges⟩ = none ∧
    (executePipeline cyclicPipelineEnv 5 1).result = .error (.valueError "Pipeline has cycles!") ∧
    (executePipeline cyclicPipelineEnv 5 1).events = [] :=
  c5_cyclic_pipeline cyclicPipelineEnv 5 1 cyclicPipeline ["A", "B"] rfl (by decide) (by decide)

end BuildTL
